import Mathlib

/-
Verification of the BasicState key-value observable-state container.

The repository ships only the TypeScript declaration surface
(src/index.d.ts); the Lua implementation behind it is not part of the
source tree.  The definitions below are therefore a shallow embedding
modelled from the specification and from the doc comments of the
declaration file: the store is a mapping from string keys to values,
mutators return the resulting store together with the list of change
events they fire, and a fallible mutator returns an Except value whose
error constructor stands for the Lua error raised on a type violation.
-/

namespace BasicState

/-- Modelled from the spec: the values a BasicState store can hold.  The
implementation is untyped Lua; the spec only ever distinguishes numbers
(increment/decrement), booleans (toggle) and "other" data, so the model
carries numbers (as integers), booleans and strings.  The deletion
sentinel BasicState.None is not a storable value: it is encoded as
Option.none in the argument of the mutators. -/
inductive Value where
  | num (n : Int)
  | boolean (b : Bool)
  | str (s : String)
deriving DecidableEq

/-- The state table: an association list from string keys to stored values. -/
abbrev StateMap := List (String × Value)

/-- First-match lookup in the state table, mirroring Lua table indexing. -/
def lookup : StateMap → String → Option Value
  | [], _ => none
  | (k₀, w) :: rest, k => if k₀ = k then some w else lookup rest k

/-- Modelled from the spec: Lua table assignment self.__state[Key] = Value,
where assigning the encoded nil (Option.none) removes the key. -/
def mapSet : StateMap → String → Option Value → StateMap
  | [], k, some w => [(k, w)]
  | [], _, none => []
  | (k₀, w₀) :: rest, k, v =>
      if k₀ = k then mapSet rest k v else (k₀, w₀) :: mapSet rest k v

/-- Modelled from the spec: the Lua type tag of a stored value, used by the
ProtectType check ("prevents changing the type of stored data, e.g. from a
number to a string"). -/
def luaType : Value → String
  | .num _ => "number"
  | .boolean _ => "boolean"
  | .str _ => "string"

/-- Modelled from the spec: the ProtectType check on Set.  A type error is
signalled exactly when protection is on, a value is currently stored at the
key, and the incoming value is a genuine value (not the deletion sentinel)
of a different Lua type. -/
def typeErr (protect : Bool) (oldValue newValue : Option Value) : Bool :=
  protect &&
    match oldValue, newValue with
    | some w, some v => luaType v != luaType w
    | _, _ => false

/-- Modelled from the spec: notification events fired by mutations.
Event.changed carries the old state and the changed key (the payload of the
public Changed signal); Event.keySignal is the firing of a per-key
BindableEvent created by GetChangedSignal, carrying the new value, the old
value and the old state. -/
inductive Event where
  | changed (oldState : StateMap) (key : String)
  | keySignal (key : String) (newValue oldValue : Option Value) (oldState : StateMap)
deriving DecidableEq

/-- Modelled from the spec: a BasicState instance.  state is the key-value
mapping; ProtectType is the public type-protection flag; bindables records
the BindableEvents created by GetChangedSignal as (key, alive) pairs;
changedAlive is the liveness of the BindableEvent behind the public Changed
signal. -/
structure Store where
  state : StateMap
  ProtectType : Bool
  bindables : List (String × Bool)
  changedAlive : Bool
deriving DecidableEq

/-- Modelled from the spec: the constructor.  ProtectType is disabled by
default, no per-key BindableEvents exist yet, and the Changed event's
BindableEvent is freshly created. -/
def new (InitialState : StateMap) : Store :=
  { state := InitialState, ProtectType := false, bindables := [], changedAlive := true }

/-- Modelled from the spec: the BasicState.None deletion sentinel, encoded
as the absent value. -/
def NoneSentinel : Option Value := none

/-- Modelled from the spec: GetState returns a deep copy of the stored
state; in a pure embedding the copy is the state itself. -/
def GetState (s : Store) : StateMap := s.state

/-- Modelled from the spec: Get retrieves the value stored at Key, or
DefaultValue when the stored value is nil. -/
def Get (s : Store) (Key : String) (DefaultValue : Option Value) : Option Value :=
  match lookup s.state Key with
  | some v => some v
  | none => DefaultValue

/-- Modelled from the spec: the state update of RawSet, with no events and
no type check. -/
def RawSetCore (s : Store) (Key : String) (v : Option Value) : Store :=
  { s with state := mapSet s.state Key v }

/-- Modelled from the spec: RawSet sets a value without triggering Changed
events and bypasses ProtectType.  It is presented in the common mutator
shape (Except for a possible type error, a list of fired events) to state
that it never errors and never fires. -/
def RawSet (s : Store) (Key : String) (v : Option Value) :
    Except Unit (Store × List Event) :=
  Except.ok (RawSetCore s Key v, [])

/-- Modelled from the spec: the per-key BindableEvents that fire when Key
changes: every live bindable created for Key fires with the new value, the
old value and the old state. -/
def keySignalFires (s : Store) (Key : String) (NewValue OldValue : Option Value) :
    List Event :=
  (s.bindables.filter fun b => b.2 && b.1 == Key).map
    fun _ => Event.keySignal Key NewValue OldValue s.state

/-- Modelled from the spec: Set stores a value at a key and triggers Changed
events.  Under ProtectType a type change signals a type error; when the
passed value equals the already stored value no event fires and the state
is unchanged; otherwise the state is updated and the Changed event plus the
key's per-key signals fire. -/
def Set (s : Store) (Key : String) (v : Option Value) :
    Except Unit (Store × List Event) :=
  if typeErr s.ProtectType (lookup s.state Key) v then Except.error ()
  else if v = lookup s.state Key then Except.ok (s, [])
  else Except.ok (RawSetCore s Key v,
    Event.changed s.state Key :: keySignalFires s Key v (lookup s.state Key))

/-- Modelled from the spec: Delete removes a key from the store by setting
its value to BasicState.None. -/
def Delete (s : Store) (Key : String) : Except Unit (Store × List Event) :=
  Set s Key NoneSentinel

/-- Modelled from the spec: SetState accepts a table of key-value pairs,
which are added to or mutated in the store, one Set per pair. -/
def SetState (s : Store) : List (String × Option Value) → Except Unit (Store × List Event)
  | [] => Except.ok (s, [])
  | (k, v) :: rest =>
      match Set s k v with
      | Except.error e => Except.error e
      | Except.ok (s₁, evs₁) =>
          match SetState s₁ rest with
          | Except.error e => Except.error e
          | Except.ok (s₂, evs₂) => Except.ok (s₂, evs₁ ++ evs₂)

/-- Modelled from the spec: the value Increment drives the stored number to:
the stored number plus Amount (defaulting to 1), prevented from exceeding
Cap when a Cap is given. -/
def incTarget (n : Int) (Amount Cap : Option Int) : Int :=
  match Cap with
  | some c => min (n + Amount.getD 1) c
  | none => n + Amount.getD 1

/-- Modelled from the spec: the value Decrement drives the stored number to:
the stored number minus Amount (defaulting to 1), prevented from falling
below Cap when a Cap is given. -/
def decTarget (n : Int) (Amount Cap : Option Int) : Int :=
  match Cap with
  | some c => max (n - Amount.getD 1) c
  | none => n - Amount.getD 1

/-- Modelled from the spec: Increment a stored number by Amount (default 1),
capped above by Cap, storing the result through Set.  On a key not holding
a number the store is left unchanged. -/
def Increment (s : Store) (Key : String) (Amount Cap : Option Int) :
    Store × List Event :=
  match lookup s.state Key with
  | some (Value.num n) =>
      match Set s Key (some (Value.num (incTarget n Amount Cap))) with
      | Except.ok r => r
      | Except.error _ => (s, [])
  | _ => (s, [])

/-- Modelled from the spec: Decrement a stored number by Amount (default 1),
capped below by Cap, storing the result through Set.  On a key not holding
a number the store is left unchanged. -/
def Decrement (s : Store) (Key : String) (Amount Cap : Option Int) :
    Store × List Event :=
  match lookup s.state Key with
  | some (Value.num n) =>
      match Set s Key (some (Value.num (decTarget n Amount Cap))) with
      | Except.ok r => r
      | Except.error _ => (s, [])
  | _ => (s, [])

/-- Modelled from the spec: Toggle replaces a stored boolean with its
negation through Set, and signals a type error when the stored value is
not a boolean. -/
def Toggle (s : Store) (Key : String) : Except Unit (Store × List Event) :=
  match lookup s.state Key with
  | some (Value.boolean b) => Set s Key (some (Value.boolean (!b)))
  | _ => Except.error ()

/-- Modelled from the spec: GetChangedSignal creates a new BindableEvent,
fired when the passed key's value changes.  The model records it as a live
(key, alive) pair and returns its index as the handle. -/
def GetChangedSignal (s : Store) (Key : String) : Store × Nat :=
  ({ s with bindables := s.bindables ++ [(Key, true)] }, s.bindables.length)

/-- Modelled from the spec: Destroy destroys all BindableEvents created
using GetChangedSignal and the Changed event's BindableEvent, and clears
the state. -/
def Destroy (s : Store) : Store :=
  { state := [],
    ProtectType := s.ProtectType,
    bindables := s.bindables.map fun b => (b.1, false),
    changedAlive := false }

/- Basic lemmas about the state table. -/

theorem lookup_mapSet (m : StateMap) (k : String) (v : Option Value) (kq : String) :
    lookup (mapSet m k v) kq = if kq = k then v else lookup m kq := by
  induction m with
  | nil =>
      cases v with
      | some w =>
          by_cases h : kq = k
          · subst h; simp [mapSet, lookup]
          · have h' : ¬k = kq := fun hh => h hh.symm
            simp [mapSet, lookup, h, h']
      | none => simp [mapSet, lookup]
  | cons p rest ih =>
      obtain ⟨k₀, w₀⟩ := p
      by_cases h₀ : k₀ = k
      · subst h₀
        by_cases hq : kq = k₀
        · subst hq; simp [mapSet, lookup, ih]
        · have hq' : ¬k₀ = kq := fun hh => hq hh.symm
          simp [mapSet, lookup, ih, hq, hq']
      · by_cases hq : k₀ = kq
        · subst hq
          simp [mapSet, lookup, h₀]
        · simp [mapSet, lookup, h₀, hq, ih]

theorem lookup_eq_none_iff (m : StateMap) (k : String) :
    lookup m k = none ↔ k ∉ m.map Prod.fst := by
  induction m with
  | nil => simp [lookup]
  | cons p rest ih =>
      obtain ⟨k₀, w₀⟩ := p
      by_cases h : k₀ = k
      · subst h; simp [lookup]
      · have h' : ¬k = k₀ := fun hh => h hh.symm
        simp [lookup, h, h', ih]

theorem set_ok_lookup (s : Store) (k : String) (v : Option Value) (s' : Store)
    (evs : List Event) (h : Set s k v = Except.ok (s', evs)) (kq : String) :
    lookup s'.state kq = if kq = k then v else lookup s.state kq := by
  unfold Set at h
  split at h
  · exact absurd h (by simp)
  · split at h
    next heq =>
      simp only [Except.ok.injEq, Prod.mk.injEq] at h
      obtain ⟨hs, -⟩ := h
      subst hs
      by_cases hq : kq = k
      · subst hq; simp [heq.symm]
      · simp [hq]
    next heq =>
      simp only [Except.ok.injEq, Prod.mk.injEq] at h
      obtain ⟨hs, -⟩ := h
      subst hs
      simpa [RawSetCore] using lookup_mapSet s.state k v kq

theorem set_ok_of_typeErr_false (s : Store) (k : String) (v : Option Value)
    (h : typeErr s.ProtectType (lookup s.state k) v = false) :
    ∃ s' evs, Set s k v = Except.ok (s', evs) := by
  by_cases heq : v = lookup s.state k
  · refine ⟨s, [], ?_⟩
    unfold Set
    rw [if_neg (by simp [h]), if_pos heq]
  · refine ⟨RawSetCore s k v,
      Event.changed s.state k :: keySignalFires s k v (lookup s.state k), ?_⟩
    unfold Set
    rw [if_neg (by simp [h]), if_neg heq]

theorem typeErr_num_num (p : Bool) (n m : Int) (rest : Option Value)
    (h : rest = some (Value.num n)) :
    typeErr p rest (some (Value.num m)) = false := by
  subst h; simp [typeErr, luaType]

/-- Whether a fallible mutator succeeded (did not signal a type error). -/
def isOk : Except Unit (Store × List Event) → Bool
  | Except.ok _ => true
  | Except.error _ => false

/-- A concrete store used in witnesses: empty state, default flags. -/
def wEmpty : Store :=
  { state := [], ProtectType := false, bindables := [], changedAlive := true }

/-- A concrete store used in witnesses: one number at key x. -/
def wNum : Store :=
  { state := [("x", Value.num 1)], ProtectType := false,
    bindables := [], changedAlive := true }

/-- A concrete store used in witnesses: a string at key x, type protection
on, and one live per-key bindable for x. -/
def wProt : Store :=
  { state := [("x", Value.str "old")], ProtectType := true,
    bindables := [("x", true)], changedAlive := true }

/-- Claim C1: for every key k and value v, calling Set(k, v) and then Get(k)
returns v. -/
theorem get_after_set (s : Store) (k : String) (v : Value) (s' : Store)
    (evs : List Event) (h : Set s k (some v) = Except.ok (s', evs)) :
    Get s' k none = some v := by
  have hl := set_ok_lookup s k (some v) s' evs h k
  simp only [if_pos rfl] at hl
  simp [Get, hl]

theorem get_after_set_witness :
    Get wNum "x" none = some (Value.num 1) :=
  get_after_set (new []) "x" (Value.num 1) wNum [Event.changed [] "x"] rfl

/-- Claim C2: after Delete(k) the key is removed from the store: Get(k)
returns only the DefaultValue, k does not appear in GetState(), and Delete
is internally Set of the None sentinel. -/
theorem delete_removes_key (s : Store) (k : String) (s' : Store) (evs : List Event)
    (h : Delete s k = Except.ok (s', evs)) (d : Option Value) :
    Get s' k d = d ∧ lookup (GetState s') k = none ∧
    k ∉ (GetState s').map Prod.fst ∧ Delete s k = Set s k NoneSentinel := by
  have hl := set_ok_lookup s k NoneSentinel s' evs h k
  simp only [NoneSentinel, if_pos rfl] at hl
  exact ⟨by simp [Get, hl], by simpa [GetState] using hl,
    by simpa [GetState] using (lookup_eq_none_iff s'.state k).1 hl, rfl⟩

theorem delete_removes_key_witness :
    Get wEmpty "x" (some (Value.num 9)) = some (Value.num 9) ∧
    lookup (GetState wEmpty) "x" = none ∧
    "x" ∉ (GetState wEmpty).map Prod.fst ∧
    Delete (new [("x", Value.num 1)]) "x" =
      Set (new [("x", Value.num 1)]) "x" NoneSentinel :=
  delete_removes_key (new [("x", Value.num 1)]) "x" wEmpty
    [Event.changed [("x", Value.num 1)] "x"] rfl (some (Value.num 9))

/-- Claim C9: RawSet(k, v) stores v at k like Set does, but fires no events
and signals no type error, whatever the store (in particular with
ProtectType on and a differing stored type). -/
theorem rawset_silent (s : Store) (k : String) (v : Option Value) :
    isOk (RawSet s k v) = true ∧
    ∀ s' evs, RawSet s k v = Except.ok (s', evs) →
      evs = [] ∧ lookup s'.state k = v ∧
      ∀ kq, kq ≠ k → lookup s'.state kq = lookup s.state kq := by
  refine ⟨rfl, ?_⟩
  intro s' evs h
  simp only [RawSet, Except.ok.injEq, Prod.mk.injEq] at h
  obtain ⟨hs, hevs⟩ := h
  subst hs
  refine ⟨hevs.symm, ?_, ?_⟩
  · simpa [RawSetCore] using lookup_mapSet s.state k v k
  · intro kq hkq
    simpa [RawSetCore, hkq] using lookup_mapSet s.state k v kq

theorem rawset_silent_witness :
    isOk (RawSet wProt "x" (some (Value.num 5))) = true ∧
    lookup (RawSetCore wProt "x" (some (Value.num 5))).state "x" =
      some (Value.num 5) ∧
    lookup (RawSetCore wProt "x" (some (Value.num 5))).state "y" =
      lookup wProt.state "y" :=
  ⟨(rawset_silent wProt "x" (some (Value.num 5))).1,
   ((rawset_silent wProt "x" (some (Value.num 5))).2 _ [] rfl).2.1,
   ((rawset_silent wProt "x" (some (Value.num 5))).2 _ [] rfl).2.2 "y" (by decide)⟩

/-- Claim C10: Get(k, DefaultValue) returns DefaultValue when nothing is
stored at k, and returns the stored value, ignoring DefaultValue, when a
value is present. -/
theorem get_default_spec (s : Store) (k : String) (d : Option Value) :
    (lookup s.state k = none → Get s k d = d) ∧
    ∀ v, lookup s.state k = some v → Get s k d = some v := by
  constructor
  · intro h; simp [Get, h]
  · intro v h; simp [Get, h]

theorem get_default_spec_witness :
    Get (new []) "x" (some (Value.num 7)) = some (Value.num 7) ∧
    Get (new [("y", Value.num 3)]) "y" (some (Value.num 7)) = some (Value.num 3) :=
  ⟨(get_default_spec (new []) "x" (some (Value.num 7))).1 rfl,
   (get_default_spec (new [("y", Value.num 3)]) "y" (some (Value.num 7))).2
     (Value.num 3) rfl⟩

/-- A concrete store used in witnesses: one boolean at key x. -/
def wBool : Store :=
  { state := [("x", Value.boolean true)], ProtectType := false,
    bindables := [], changedAlive := true }

/-- Claim C4: Toggle(k) signals a type error exactly when the value stored
at k is not a boolean; on a stored boolean it replaces the value with its
negation. -/
theorem toggle_spec (s : Store) (k : String) :
    (Toggle s k = Except.error () ↔
      ∀ b, lookup s.state k ≠ some (Value.boolean b)) ∧
    ∀ b s' evs, lookup s.state k = some (Value.boolean b) →
      Toggle s k = Except.ok (s', evs) →
      lookup s'.state k = some (Value.boolean (!b)) := by
  refine ⟨?_, ?_⟩
  · cases hv : lookup s.state k with
    | none => simp [Toggle, hv]
    | some v =>
      cases v with
      | num n => simp [Toggle, hv]
      | str t => simp [Toggle, hv]
      | boolean b =>
        have hT : Toggle s k = Set s k (some (Value.boolean (!b))) := by
          simp [Toggle, hv]
        obtain ⟨s', evs, hset⟩ := set_ok_of_typeErr_false s k
          (some (Value.boolean (!b))) (by simp [typeErr, luaType, hv])
        constructor
        · intro h
          rw [hT, hset] at h
          simp at h
        · intro hall
          exact absurd rfl (hall b)
  · intro b s' evs hb hT
    have hT2 : Set s k (some (Value.boolean (!b))) = Except.ok (s', evs) := by
      simpa [Toggle, hb] using hT
    have hl := set_ok_lookup s k (some (Value.boolean (!b))) s' evs hT2 k
    simpa using hl

theorem toggle_spec_witness :
    lookup (RawSetCore wBool "x" (some (Value.boolean false))).state "x" =
      some (Value.boolean false) :=
  (toggle_spec wBool "x").2 true
    (RawSetCore wBool "x" (some (Value.boolean false)))
    [Event.changed [("x", Value.boolean true)] "x"] rfl rfl

/-- Claim C5: when ProtectType is true, Set signals a type error whenever
the new value's type differs from the type of the value stored at the key;
when ProtectType is false -- its state on a fresh store, since it is
disabled by default -- Set never signals a type error. -/
theorem protect_type_spec :
    (∀ init : StateMap, (new init).ProtectType = false) ∧
    (∀ (s : Store) (k : String) (v w : Value), s.ProtectType = true →
      lookup s.state k = some w → luaType v ≠ luaType w →
      Set s k (some v) = Except.error ()) ∧
    (∀ (s : Store) (k : String) (v : Option Value), s.ProtectType = false →
      isOk (Set s k v) = true) := by
  refine ⟨fun _ => rfl, ?_, ?_⟩
  · intro s k v w hp hl hne
    have ht : typeErr s.ProtectType (lookup s.state k) (some v) = true := by
      simpa [typeErr, hl, hp, bne_iff_ne] using hne
    simp [Set, ht]
  · intro s k v hp
    obtain ⟨s', evs, hset⟩ := set_ok_of_typeErr_false s k v
      (by simp [typeErr, hp])
    rw [hset]
    rfl

theorem protect_type_spec_witness :
    (new []).ProtectType = false ∧
    Set wProt "x" (some (Value.num 5)) = Except.error () ∧
    isOk (Set wNum "x" (some (Value.str "s"))) = true :=
  ⟨protect_type_spec.1 [],
   protect_type_spec.2.1 wProt "x" (Value.num 5) (Value.str "old") rfl rfl
     (by decide),
   protect_type_spec.2.2 wNum "x" (some (Value.str "s")) rfl⟩

theorem increment_lookup (s : Store) (k : String) (Amount Cap : Option Int)
    (n : Int) (hn : lookup s.state k = some (Value.num n)) (s' : Store)
    (evs : List Event) (h : Increment s k Amount Cap = (s', evs)) :
    lookup s'.state k = some (Value.num (incTarget n Amount Cap)) := by
  obtain ⟨s₁, evs₁, hset⟩ := set_ok_of_typeErr_false s k
    (some (Value.num (incTarget n Amount Cap)))
    (typeErr_num_num s.ProtectType n (incTarget n Amount Cap) _ hn)
  have hI : Increment s k Amount Cap = (s₁, evs₁) := by
    simp [Increment, hn, hset]
  rw [hI] at h
  obtain ⟨hs, -⟩ := Prod.mk.injEq s₁ evs₁ s' evs ▸ h
  subst hs
  simpa using set_ok_lookup s k (some (Value.num (incTarget n Amount Cap)))
    s₁ evs₁ hset k

theorem decrement_lookup (s : Store) (k : String) (Amount Cap : Option Int)
    (n : Int) (hn : lookup s.state k = some (Value.num n)) (s' : Store)
    (evs : List Event) (h : Decrement s k Amount Cap = (s', evs)) :
    lookup s'.state k = some (Value.num (decTarget n Amount Cap)) := by
  obtain ⟨s₁, evs₁, hset⟩ := set_ok_of_typeErr_false s k
    (some (Value.num (decTarget n Amount Cap)))
    (typeErr_num_num s.ProtectType n (decTarget n Amount Cap) _ hn)
  have hD : Decrement s k Amount Cap = (s₁, evs₁) := by
    simp [Decrement, hn, hset]
  rw [hD] at h
  obtain ⟨hs, -⟩ := Prod.mk.injEq s₁ evs₁ s' evs ▸ h
  subst hs
  simpa using set_ok_lookup s k (some (Value.num (decTarget n Amount Cap)))
    s₁ evs₁ hset k

/-- Claim C3: on a key holding a number n, Increment sets the value to n
plus Amount (defaulting to 1) without exceeding Cap when one is given, and
Decrement sets the value to n minus Amount (defaulting to 1) without
falling below Cap when one is given. -/
theorem increment_decrement_caps (s : Store) (k : String) (n : Int)
    (Amount Cap : Option Int) (hn : lookup s.state k = some (Value.num n)) :
    (∀ s' evs, Increment s k Amount Cap = (s', evs) →
      (Cap = none → lookup s'.state k = some (Value.num (n + Amount.getD 1))) ∧
      ∀ c, Cap = some c →
        lookup s'.state k = some (Value.num (min (n + Amount.getD 1) c)) ∧
        min (n + Amount.getD 1) c ≤ c) ∧
    (∀ s' evs, Decrement s k Amount Cap = (s', evs) →
      (Cap = none → lookup s'.state k = some (Value.num (n - Amount.getD 1))) ∧
      ∀ c, Cap = some c →
        lookup s'.state k = some (Value.num (max (n - Amount.getD 1) c)) ∧
        c ≤ max (n - Amount.getD 1) c) := by
  constructor
  · intro s' evs h
    have hl := increment_lookup s k Amount Cap n hn s' evs h
    constructor
    · intro hc; rw [hc] at hl; simpa [incTarget] using hl
    · intro c hc
      rw [hc] at hl
      exact ⟨by simpa [incTarget] using hl, min_le_right _ _⟩
  · intro s' evs h
    have hl := decrement_lookup s k Amount Cap n hn s' evs h
    constructor
    · intro hc; rw [hc] at hl; simpa [decTarget] using hl
    · intro c hc
      rw [hc] at hl
      exact ⟨by simpa [decTarget] using hl, le_max_right _ _⟩

theorem increment_decrement_caps_witness :
    (lookup (RawSetCore wNum "x" (some (Value.num 3))).state "x" =
       some (Value.num 3) ∧ (3 : Int) ≤ 3) ∧
    (lookup (RawSetCore wNum "x" (some (Value.num 0))).state "x" =
       some (Value.num 0) ∧ (0 : Int) ≤ 0) :=
  ⟨((increment_decrement_caps wNum "x" 1 (some 5) (some 3) rfl).1
      (RawSetCore wNum "x" (some (Value.num 3)))
      [Event.changed [("x", Value.num 1)] "x"] rfl).2 3 rfl,
   ((increment_decrement_caps wNum "x" 1 (some 5) (some 0) rfl).2
      (RawSetCore wNum "x" (some (Value.num 0)))
      [Event.changed [("x", Value.num 1)] "x"] rfl).2 0 rfl⟩

/-- A concrete store used in witnesses: one number at key x and one live
per-key bindable for x. -/
def wSig : Store :=
  { state := [("x", Value.num 1)], ProtectType := false,
    bindables := [("x", true)], changedAlive := true }

/-- The events a successful Set of 2 over 1 at key x fires on wSig. -/
def wSigEvs : List Event :=
  [Event.changed [("x", Value.num 1)] "x",
   Event.keySignal "x" (some (Value.num 2)) (some (Value.num 1))
     [("x", Value.num 1)]]

/-- Claim C6: a successful Set(k, v) with v different from the stored value
fires the Changed event with the old state and the changed key, and the
per-key changed signal for k when one was created; with v equal to the
stored value it fires no events. -/
theorem set_fires_events (s : Store) (k : String) (v : Option Value)
    (s' : Store) (evs : List Event) (h : Set s k v = Except.ok (s', evs)) :
    (v ≠ lookup s.state k →
      Event.changed s.state k ∈ evs ∧
      ((k, true) ∈ s.bindables →
        Event.keySignal k v (lookup s.state k) s.state ∈ evs)) ∧
    (v = lookup s.state k → evs = []) := by
  unfold Set at h
  split at h
  · exact absurd h (by simp)
  · split at h
    next heq =>
      simp only [Except.ok.injEq, Prod.mk.injEq] at h
      obtain ⟨-, hevs⟩ := h
      exact ⟨fun hne => absurd heq hne, fun _ => hevs.symm⟩
    next heq =>
      simp only [Except.ok.injEq, Prod.mk.injEq] at h
      obtain ⟨-, hevs⟩ := h
      subst hevs
      refine ⟨fun _ => ⟨List.mem_cons_self _ _, ?_⟩, fun he => absurd he heq⟩
      intro hb
      refine List.mem_cons_of_mem _ ?_
      unfold keySignalFires
      exact List.mem_map.2 ⟨(k, true), List.mem_filter.2 ⟨hb, by simp⟩, rfl⟩

theorem set_fires_events_witness :
    (Event.changed wSig.state "x" ∈ wSigEvs ∧
     Event.keySignal "x" (some (Value.num 2)) (lookup wSig.state "x")
       wSig.state ∈ wSigEvs) ∧
    ([] : List Event) = [] :=
  ⟨⟨((set_fires_events wSig "x" (some (Value.num 2))
        (RawSetCore wSig "x" (some (Value.num 2))) wSigEvs rfl).1
        (by decide)).1,
    ((set_fires_events wSig "x" (some (Value.num 2))
        (RawSetCore wSig "x" (some (Value.num 2))) wSigEvs rfl).1
        (by decide)).2 (by decide)⟩,
   (set_fires_events wSig "x" (some (Value.num 1)) wSig [] rfl).2 rfl⟩

/-- Claim C7: SetState merges the passed table into the store: every
key-value pair of the table (keys pairwise distinct, as in a Lua table) is
added to or updated in the store, and every key absent from the table keeps
its previous value. -/
theorem setstate_merge_frame (tbl : List (String × Option Value)) :
    ∀ s s' evs, (tbl.map Prod.fst).Nodup →
      SetState s tbl = Except.ok (s', evs) →
      (∀ kv, kv ∈ tbl → lookup (GetState s') kv.1 = kv.2) ∧
      ∀ kq, kq ∉ tbl.map Prod.fst →
        lookup (GetState s') kq = lookup (GetState s) kq := by
  induction tbl with
  | nil =>
      intro s s' evs hnd h
      simp only [SetState, Except.ok.injEq, Prod.mk.injEq] at h
      obtain ⟨hs, -⟩ := h
      subst hs
      exact ⟨fun kv hkv => absurd hkv (List.not_mem_nil kv), fun kq _ => rfl⟩
  | cons p rest ih =>
      obtain ⟨k₀, v₀⟩ := p
      intro s s' evs hnd h
      simp only [List.map_cons, List.nodup_cons] at hnd
      obtain ⟨hk₀, hnd₁⟩ := hnd
      simp only [SetState] at h
      split at h
      next hS => simp at h
      next s₁ evs₁ hS =>
        split at h
        next hR => simp at h
        next s₂ evs₂ hR =>
          simp only [Except.ok.injEq, Prod.mk.injEq] at h
          obtain ⟨hs, -⟩ := h
          subst hs
          obtain ⟨ihA, ihB⟩ := ih s₁ s₂ evs₂ hnd₁ hR
          constructor
          · intro kv hkv
            rcases List.mem_cons.1 hkv with hkv | hkv
            · subst hkv
              have h1 := ihB k₀ hk₀
              have h2 := set_ok_lookup s k₀ v₀ s₁ evs₁ hS k₀
              simp only [if_pos rfl] at h2
              exact h1.trans h2
            · exact ihA kv hkv
          · intro kq hkq
            have hkq1 : ¬kq = k₀ := fun hh => hkq (by simp [hh])
            have hkq2 : kq ∉ rest.map Prod.fst := fun hh => hkq (by simp [hh])
            have h1 := ihB kq hkq2
            have h2 := set_ok_lookup s k₀ v₀ s₁ evs₁ hS kq
            rw [if_neg hkq1] at h2
            exact h1.trans h2

/-- A concrete table used in the SetState witness. -/
def wTbl : List (String × Option Value) :=
  [("a", some (Value.num 1)), ("b", some (Value.num 2))]

/-- The store produced by merging wTbl into a store holding c. -/
def wMerged : Store :=
  { state := [("c", Value.num 3), ("a", Value.num 1), ("b", Value.num 2)],
    ProtectType := false, bindables := [], changedAlive := true }

/-- The events fired while merging wTbl into a store holding c. -/
def wMergedEvs : List Event :=
  [Event.changed [("c", Value.num 3)] "a",
   Event.changed [("c", Value.num 3), ("a", Value.num 1)] "b"]

theorem setstate_merge_frame_witness :
    lookup (GetState wMerged) "a" = some (Value.num 1) ∧
    lookup (GetState wMerged) "c" =
      lookup (GetState (new [("c", Value.num 3)])) "c" :=
  ⟨(setstate_merge_frame wTbl (new [("c", Value.num 3)]) wMerged wMergedEvs
      (by decide) rfl).1 ("a", some (Value.num 1)) (by decide),
   (setstate_merge_frame wTbl (new [("c", Value.num 3)]) wMerged wMergedEvs
      (by decide) rfl).2 "c" (by decide)⟩

/-- Claim C8: Destroy clears all stored values and releases every
notification channel: every BindableEvent recorded from GetChangedSignal
is destroyed (GetChangedSignal records the bindables it creates) and the
Changed event's BindableEvent is destroyed. -/
theorem destroy_spec (s : Store) :
    (Destroy s).state = [] ∧ (Destroy s).changedAlive = false ∧
    (∀ b, b ∈ (Destroy s).bindables → b.2 = false) ∧
    ∀ k, ((GetChangedSignal s k).1).bindables = s.bindables ++ [(k, true)] := by
  refine ⟨rfl, rfl, ?_, fun k => rfl⟩
  intro b hb
  simp only [Destroy, List.mem_map] at hb
  obtain ⟨a, -, ha⟩ := hb
  subst ha
  rfl

theorem destroy_spec_witness :
    (Destroy wProt).state = [] ∧ (Destroy wProt).changedAlive = false ∧
    ("x", false).2 = false ∧
    ((GetChangedSignal wProt "y").1).bindables =
      wProt.bindables ++ [("y", true)] :=
  ⟨(destroy_spec wProt).1, (destroy_spec wProt).2.1,
   (destroy_spec wProt).2.2.1 ("x", false) (by decide),
   (destroy_spec wProt).2.2.2 "y"⟩

end BasicState
